import Mathlib

/-!
Verification development for the SettingsManager repository
(src/settings-manager.js).  The definitions below are a shallow embedding
of the settings engine: JS plain objects become association lists in
enumeration order, localStorage becomes an association list of strings,
and the engine state carries explicit logs of updateDOM invocations and
initializer invocations.  Line numbers in comments refer to
src/settings-manager.js.
-/

set_option autoImplicit false

namespace SettingsManager

/-- A JS plain object with string keys, kept in enumeration order.
For integer-like keys JS enumerates ascending numerically regardless of
declaration order; the list below is always the enumeration order. -/
abbrev Obj (α : Type) := List (String × α)

/-- Property read `o[k]`: first entry with the key, else `undefined`. -/
def Obj.lookup {α : Type} (o : Obj α) (k : String) : Option α :=
  match o with
  | [] => none
  | (k2, v) :: t => if k2 = k then some v else Obj.lookup t k

/-- The keys of the object in enumeration order (the for-in order). -/
def Obj.keys {α : Type} (o : Obj α) : List String := o.map (fun p => p.1)

/-- Property write `o[k] = v`: replace the existing entry, else append. -/
def Obj.setKey {α : Type} (o : Obj α) (k : String) (v : α) : Obj α :=
  match o with
  | [] => [(k, v)]
  | (k2, v2) :: t => if k2 = k then (k2, v) :: t else (k2, v2) :: Obj.setKey t k v

/-- The property names every plain object literal inherits from
`Object.prototype`: a read of one of these on an object without an own
entry of that name yields a non-undefined value (a built-in function, or
the prototype object itself for `__proto__`).  They are non-enumerable,
so for-in loops — and hence `Obj.keys` — never see them; but
`o[k] !== undefined` style checks DO hit them. -/
def protoKeys : List String :=
  ["constructor", "hasOwnProperty", "isPrototypeOf", "propertyIsEnumerable",
   "toLocaleString", "toString", "valueOf", "__proto__",
   "__defineGetter__", "__defineSetter__", "__lookupGetter__", "__lookupSetter__"]

/-- Result of a full JS property read `o[k]` on a plain object literal:
an own entry when present (own entries shadow the prototype), else an
inherited `Object.prototype` member for the names in `protoKeys`, else
undefined.  The inherited members are functions (or the prototype object)
and have no own property `f`. -/
inductive PropRead (α : Type)
  | own (v : α)
  | inherited
  | undef

/-- The full JS property read `o[k]`, prototype chain included. -/
def jsProp {α : Type} (o : Obj α) (k : String) : PropRead α :=
  match Obj.lookup o k with
  | some v => PropRead.own v
  | none => if k ∈ protoKeys then PropRead.inherited else PropRead.undef

/-- One option of a setting (an entry of the `o` object of a setting,
see settings-list.js lines 29-32): `s` is the optional human readable
label, `f` records whether an `onSelect` callback is declared,
`h` is the hidden flag, `d` the disabled flag.  Callback and initializer
bodies are external data; the engine model only needs their presence,
plus an outcome parameter where a claim depends on it. -/
structure OptionDef where
  s : Option String := none
  f : Bool := false
  h : Bool := false
  d : Bool := false
deriving Repr, DecidableEq

/-- The `d` details object of a setting (settings-list.js lines 22-25). -/
structure Details where
  name : String := ""
  description : String := ""
  type : String := ""
deriving Repr, DecidableEq

/-- One setting definition (settings-list.js lines 19-28): `v` the current
(default) value, `o` the options object, `d` the details, `i` whether the
schema declares an initialization function. -/
structure SettingDef where
  v : String
  o : Obj OptionDef
  d : Details := {}
  i : Bool := false
deriving Repr, DecidableEq

/-- A recorded invocation of `updateDOM` (lines 324-375): the setting name,
the value argument and the error flag. -/
structure DomEvent where
  setting : String
  value : String
  error : Bool
deriving Repr, DecidableEq

/-- The engine state.  `registry` is the ONE settings object: line 91
(`this.#defaults = this.#settings`) makes `#defaults` an alias of
`#settings`, not a copy, so both private fields reference this object.
`storage` models localStorage, `dom` logs `updateDOM` invocations and
`initLog` logs initializer invocations during `init`. -/
structure EngineState where
  registry : Obj SettingDef
  storage : Obj String
  dom : List DomEvent
  initLog : List String
deriving Repr, DecidableEq

/-- Constructor (lines 83-118), restricted to the settings state: copies the
reference to the provided settings object into `#settings`, aliases
`#defaults` to the same object (line 91) and applies a SHALLOW
`Object.freeze` (line 92).  `storage` is the ambient localStorage content. -/
def construct (settings : Obj SettingDef) (storage : Obj String) : EngineState :=
  { registry := settings, storage := storage, dom := [], initLog := [] }

/-- `getSettings()` (line 626): returns the `#settings` object. -/
def getSettings (st : EngineState) : Obj SettingDef := st.registry

/-- `getDefaults()` (line 663): returns the `#defaults` object, which is the
same object as `#settings` (line 91). -/
def getDefaults (st : EngineState) : Obj SettingDef := st.registry

/-- `getSettingObject(setting)` (lines 654-656). -/
def getSettingObject (st : EngineState) (setting : String) : Option SettingDef :=
  Obj.lookup st.registry setting

/-- `getDefault(setting)` (lines 671-673): `this.#defaults[setting].v`;
`none` models the TypeError on an unregistered name. -/
def getDefault (st : EngineState) (setting : String) : Option String :=
  (Obj.lookup st.registry setting).map (fun sd => sd.v)

/-- `getSetting(setting)` (lines 634-646): the stored string when
localStorage has the key, else `this.#settings[setting].v`; an
unregistered name makes the member access throw, the catch at line 642
returns null (`none`).  The storage read itself is modelled as
non-throwing (the claims below assume the adapter does not throw). -/
def getSetting (st : EngineState) (setting : String) : Option String :=
  match Obj.lookup st.storage setting with
  | some value => some value
  | none => (Obj.lookup st.registry setting).map (fun sd => sd.v)

/-- An EXTERNAL nested mutation of the working settings object:
`engine.getSettings()[name].v = newV`.  This is permitted at runtime
because `Object.freeze` (line 92) is shallow: only the top level of the
object is frozen, the nested setting objects stay mutable.  Because
`#defaults` references the same object (line 91), the write is visible
through `getDefaults`/`getDefault` as well. -/
def extMutateValue (st : EngineState) (name : String) (newV : String) : EngineState :=
  { st with registry :=
      st.registry.map (fun p => if p.1 = name then (p.1, { p.2 with v := newV }) else p) }

/-- `executeSetting(setting, args)` (lines 279-307), with the scheduled
microtasks already drained (the fine-grained interleaving is modelled
separately by `setCallbackTrace`).  `cbOk` abstracts the awaited callback
outcome: `true` when the callback resolves to `true`, `false` when it
resolves to anything else or rejects (lines 289-298).  The value argument
resolves as `args.value || this.#settings[setting].v || this.#defaults[setting].v`
(line 280); the two fallbacks coincide because the two fields alias one
object, and the empty string is falsy.  The read `options[value]`
(line 286) is a full property read, prototype chain included: on an
inherited `Object.prototype` member the check `.f !== undefined` is
false (those members have no `f`), so the else branch at line 301 runs a
success `updateDOM`; only a value found nowhere makes `.f` throw inside
the try, caught at line 303 with no `updateDOM`.  Returns the new state
and whether an exception escaped the synchronous call (only the member
access on an unregistered setting at line 280 can escape). -/
def executeSetting (cbOk : Bool) (st : EngineState) (setting : String)
    (argsValue : String) : EngineState × Bool :=
  match Obj.lookup st.registry setting with
  | none => (st, true)
  | some sd =>
    let value := if argsValue = "" then sd.v else argsValue
    match jsProp sd.o value with
    | PropRead.own od =>
      if od.f then
        ({ st with dom := st.dom ++ [⟨setting, value, !cbOk⟩] }, false)
      else
        ({ st with dom := st.dom ++ [⟨setting, value, false⟩] }, false)
    | PropRead.inherited =>
      ({ st with dom := st.dom ++ [⟨setting, value, false⟩] }, false)
    | PropRead.undef => (st, false)

/-- `setSetting(setting, args)` (lines 703-747), with the scheduled
microtasks already drained.  `storeOk` models whether
`localStorage.setItem` succeeds; `cbOk` as in `executeSetting`.
The validation at line 707 is the property read
`settingOptions[args.v] !== undefined`, a full prototype-chain read.
Branches:
* unregistered setting: line 704 reads `.o` outside every try, the
  TypeError escapes (second component `true`), nothing changes;
* `args.v` is an own option key whose option declares `f` (lines
  709-713): the async IIFE runs `executeSetting` and then `setItem`; a
  `setItem` failure there is an unhandled rejection inside the IIFE,
  nothing is stored and nothing more is logged;
* `args.v` is an own option key without `f` (lines 714-722): `setItem`
  then `updateDOM(setting, v, false)`; on a `setItem` throw the catches
  at lines 718/723/730 end in `updateDOM(setting, v, true)`;
* `args.v` is an inherited `Object.prototype` member name: the line 707
  check PASSES via the prototype chain, the inherited member has no `f`,
  and the same no-callback branch (lines 714-722) persists the value and
  runs the success `updateDOM`;
* `args.v` is found nowhere: the throw at line 728 is caught at line 730
  and `updateDOM(setting, args.v, true)` runs. -/
def setSetting (storeOk cbOk : Bool) (st : EngineState) (setting : String)
    (v : String) : EngineState × Bool :=
  match Obj.lookup st.registry setting with
  | none => (st, true)
  | some sd =>
    match jsProp sd.o v with
    | PropRead.own od =>
      if od.f then
        let st1 := (executeSetting cbOk st setting v).1
        (if storeOk then { st1 with storage := Obj.setKey st1.storage setting v }
         else st1, false)
      else
        if storeOk then
          ({ st with storage := Obj.setKey st.storage setting v,
                     dom := st.dom ++ [⟨setting, v, false⟩] }, false)
        else
          ({ st with dom := st.dom ++ [⟨setting, v, true⟩] }, false)
    | PropRead.inherited =>
      if storeOk then
        ({ st with storage := Obj.setKey st.storage setting v,
                   dom := st.dom ++ [⟨setting, v, false⟩] }, false)
      else
        ({ st with dom := st.dom ++ [⟨setting, v, true⟩] }, false)
    | PropRead.undef =>
      ({ st with dom := st.dom ++ [⟨setting, v, true⟩] }, false)

/-- The member access `setting.i` at line 140, where `setting` is the
for-in LOOP VARIABLE of `init` (line 138).  A for-in loop variable holds
the property KEY, a string, and strings have no property `i`, so this is
`undefined` for every setting — independent of whether the schema of the
setting declares an initialization function. -/
def stringPropKeyI (_setting : String) : Option Unit := none

/-- `init()` (lines 136-150): for each key of the settings object, if
`setting.i` is defined call it (line 142; dead branch, see
`stringPropKeyI`; an invocation would be recorded in `initLog`), else
`setSetting(setting, {v: getSetting(setting)})` (line 145).  The body has
no try/catch and no aggregation; it always ends in `return this`,
so the result type has no failure channel.  The branch for a null
`getSetting` result mirrors the JS key coercion of `null`; it is
unreachable for registered keys. -/
def init (storeOk cbOk : Bool) (st : EngineState) : EngineState :=
  st.registry.foldl (fun s p =>
    match stringPropKeyI p.1 with
    | some _ => { s with initLog := s.initLog ++ [p.1] }
    | none =>
      match getSetting s p.1 with
      | some val => (setSetting storeOk cbOk s p.1 val).1
      | none => (setSetting storeOk cbOk s p.1 "null").1) st

/-- `JSON.stringify` of a string: the quoted form.  Escaping of special
characters is not modelled; no input below needs it. -/
def jsonStringify (s : String) : String := "\"" ++ s ++ "\""

/-- Index of the first occurrence of `x`, as `Array.prototype.indexOf`
computes it before the `-1` encoding. -/
def idxOfAux (x : String) : List String → Option Nat
  | [] => none
  | y :: t => if y = x then some 0 else (idxOfAux x t).map (fun i => i + 1)

/-- `arr.indexOf(x)` (lines 592, 594): the index of the first occurrence,
`-1` when absent. -/
def jsIndexOf (arr : List String) (x : String) : Int :=
  match idxOfAux x arr with
  | some i => (i : Int)
  | none => -1

/-- `#getNextOption(setting, currentOption = "")` (lines 584-608).
The outer `none` models the TypeError on an unregistered setting
(line 585, outside any try).  An empty `currentOption` is replaced by
`getSetting(setting)` (line 586).  The first component of the result is
`settingOptionsArray[0]` resp. `settingOptionsArray[currentOptionIndex+1]`
(lines 599, 604), `none` when the index is out of range (undefined).
The second component mirrors lines 600 and 605 EXACTLY as written:
`settingOptions[0]` resp. `settingOptions[currentOptionIndex + 1]` index
the options OBJECT with a number, i.e. the property named by the decimal
string of the index — not the property named by the next key. -/
def getNextOption (st : EngineState) (setting : String) (currentOption : String) :
    Option (Option String × Option OptionDef) :=
  match Obj.lookup st.registry setting with
  | none => none
  | some sd =>
    let cur := if currentOption = "" then (getSetting st setting).getD "null"
               else currentOption
    let arr := Obj.keys sd.o
    let i1 := jsIndexOf arr cur
    let idx := if i1 = -1 then jsIndexOf arr (jsonStringify cur) else i1
    if idx = (arr.length : Int) - 1 then
      some (arr.get? 0, Obj.lookup sd.o "0")
    else
      some (arr.get? (idx + 1).toNat, Obj.lookup sd.o (toString (idx + 1)))

/-- `next(setting, currentOption = "")` (line 617): alias of
`#getNextOption`. -/
def next (st : EngineState) (setting : String) (currentOption : String) :
    Option (Option String × Option OptionDef) :=
  getNextOption st setting currentOption

/-- The key component of one `#getNextOption` application. -/
def nextKeyStep (st : EngineState) (setting : String) (k : String) : Option String :=
  (getNextOption st setting k).bind (fun r => r.1)

/-- Iterated application of the key component of `#getNextOption`. -/
def nextKeyIter (st : EngineState) (setting : String) : Nat → String → Option String
  | 0, k => some k
  | n + 1, k =>
    match nextKeyStep st setting k with
    | some k2 => nextKeyIter st setting n k2
    | none => none

/-- Whether `parseFloat(x)` is `NaN`, for the argument
`settingOptions[settingOptionsArray[0]].s` of line 441; `none` models a
missing label (`parseFloat(undefined)` is `NaN`).  Abstraction of
`parseFloat`: a string parses exactly when it starts with a digit; the
labels and keys used below are nonnegative decimals or plainly
non-numeric text, for which this is accurate. -/
def parseFloatIsNaN : Option String → Bool
  | none => true
  | some str => !(str.front.isDigit)

/-- Numeric value of a key for the comparator `b - a` of line 443.
Abstraction: a non-numeric string gives `0` (the comparator would give
`NaN`, which the sort treats as no reordering); the sorted inputs below
use pure decimal keys, for which this is accurate. -/
def jsNumVal (s : String) : Int := (s.toInt?).getD 0

/-- Stable insertion into a descending-sorted list, matching the stable
`Array.prototype.sort` with comparator `(a, b) => b - a` (lines 442-444). -/
def insertDescNum (x : String) : List String → List String
  | [] => [x]
  | y :: t => if jsNumVal x ≥ jsNumVal y then x :: y :: t else y :: insertDescNum x t

/-- Stable descending sort by numeric value (lines 442-444). -/
def sortDescNum : List String → List String
  | [] => []
  | x :: t => insertDescNum x (sortDescNum t)

/-- The submenu branch of `generateDOM` for one setting (lines 435-465):
the list of option keys for which a SubButton is created, in creation
order.  The option keys are collected in enumeration order (lines
435-438); the descending numeric sort is applied exactly when
`parseFloat(settingOptions[settingOptionsArray[0]].s)` — the LABEL `s` of
the first option — is not `NaN` (line 441); hidden options (`h === true`)
are skipped (line 450). -/
def generateSubButtons (sd : SettingDef) : List String :=
  let arr := Obj.keys sd.o
  let firstLabel :=
    match arr.get? 0 with
    | some k0 => (Obj.lookup sd.o k0).bind (fun od => od.s)
    | none => none
  let arr2 := if !(parseFloatIsNaN firstLabel) then sortDescNum arr else arr
  arr2.filter (fun k => ((Obj.lookup sd.o k).map (fun od => od.h)).getD false = false)

/-- Outcome of an awaited option callback: it resolves with a boolean
(the code compares the result with `true`, line 290) or it rejects. -/
inductive CbResult
  | ret (b : Bool)
  | thrown
deriving Repr, DecidableEq

/-- Observable events of the callback path of `setSetting`:
`invoke b1 b2` — the callback is called, with flags recording that the
argument object carries the engine reference `s` and the setting
self-reference `this` (lines 282-283); `settle r` — the callback promise
settles; `store` — `localStorage.setItem` (line 712); `domUpd e` —
`updateDOM` with error flag `e` (lines 291-296). -/
inductive Ev
  | invoke (hasEngineArg hasSelfArg : Bool)
  | settle (r : CbResult)
  | store
  | domUpd (error : Bool)
deriving Repr, DecidableEq

/-- Pending microtasks of the callback path: `fRun k` — the callback body
with `k` remaining suspension points before it settles; `persist` — the
continuation of `await this.executeSetting(...)` in the async IIFE of
`setSetting` (lines 710-713), which performs `setItem`; `react` — the
continuation of `await options[value].f(argsPassed)` in the async IIFE of
`executeSetting` (lines 287-299), which checks the result and calls
`updateDOM`. -/
inductive MTask
  | fRun (k : Nat)
  | persist
  | react
deriving Repr, DecidableEq

/-- The error flag `updateDOM` receives on the callback path: clear only
when the callback resolved to `true` (lines 290-294), set on any other
resolution value and on rejection (lines 293, 296). -/
def errFlag : CbResult → Bool
  | .ret true => false
  | _ => true

/-- The JS microtask queue discipline: run the head task, append any task
it schedules.  `fRun 0` settles the callback promise, which schedules
`react`; `fRun (k+1)` suspends once more and reschedules itself;
`persist` performs the storage write; `react` performs the visual
update.  `fuel` bounds the number of processed tasks. -/
def runQueue (result : CbResult) : Nat → List MTask → List Ev
  | 0, _ => []
  | _ + 1, [] => []
  | fuel + 1, t :: q =>
    match t with
    | .fRun 0 => Ev.settle result :: runQueue result fuel (q ++ [MTask.react])
    | .fRun (k + 1) => runQueue result fuel (q ++ [MTask.fRun k])
    | .persist => Ev.store :: runQueue result fuel q
    | .react => Ev.domUpd (errFlag result) :: runQueue result fuel q

/-- The event trace of `setSetting` on a registered setting and a valid
value whose option declares a callback `f` (lines 703-713 together with
executeSetting lines 279-299).  `ticks` is the number of suspension
points inside the callback before it settles; `result` its outcome.
Synchronous phase: the outer async IIFE (line 710) calls
`executeSetting`, whose inner async IIFE (line 287) invokes the callback
with `argsPassed` carrying `s` (engine) and `this` (setting), lines
282-283.  `executeSetting` is an ordinary function: it returns
`undefined` immediately, NOT a promise tied to the callback, so
`await this.executeSetting(...)` schedules the `setItem` continuation
after a single tick, independently of the callback.  With `ticks = 0`
the callback settles synchronously, queueing `react` before `persist`;
with `ticks = k+1` the suspended callback body is queued before
`persist`. -/
def setCallbackTrace (ticks : Nat) (result : CbResult) : List Ev :=
  match ticks with
  | 0 => Ev.invoke true true :: Ev.settle result ::
      runQueue result 4 [MTask.react, MTask.persist]
  | k + 1 => Ev.invoke true true ::
      runQueue result (k + 5) [MTask.fRun k, MTask.persist]

/-- Whether an event is the settling of the callback promise. -/
def isSettleEv : Ev → Bool
  | .settle _ => true
  | _ => false

/-- Number of occurrences of an event in a trace. -/
def countEv (e : Ev) : List Ev → Nat
  | [] => 0
  | x :: t => (if x = e then 1 else 0) + countEv e t

/-- Number of storage writes a task will eventually emit. -/
def taskStores : MTask → Nat
  | .persist => 1
  | _ => 0

/-- Number of settle events a task will eventually emit. -/
def taskSettles : MTask → Nat
  | .fRun _ => 1
  | _ => 0

/-- Number of visual updates a task will eventually emit. -/
def taskDoms : MTask → Nat
  | .persist => 0
  | _ => 1

/-- Number of queue steps needed to drain a task and its descendants. -/
def queueCost : MTask → Nat
  | .fRun k => k + 2
  | .persist => 1
  | .react => 1

/-- Sum of a task measure over a queue. -/
def sumBy (f : MTask → Nat) (q : List MTask) : Nat := (q.map f).sum

/-! Concrete schema registries used to evaluate the engine. -/

/-- A theme setting: options `light` and `dark`, default `dark`, the
`dark` option declaring a callback. -/
def sd1w : SettingDef := { v := "dark", o := [("light", {}), ("dark", { f := true })] }

/-- Registry with the single setting `theme` (`sd1w`). -/
def R1w : Obj SettingDef := [("theme", sd1w)]

/-- A theme setting without callbacks, default `dark`. -/
def sd3w : SettingDef := { v := "dark", o := [("light", {}), ("dark", {})] }

/-- Registry with the single setting `theme` (`sd3w`). -/
def R3w : Obj SettingDef := [("theme", sd3w)]

/-- A setting whose schema declares an initialization function `i`
(modelled by the flag `i := true`; the body of the function is external
and, per claim C5, may throw when invoked). -/
def sd4w : SettingDef := { v := "x", o := [("x", {}), ("y", {})], i := true }

/-- Registry with the single setting `a` (`sd4w`). -/
def R4w : Obj SettingDef := [("a", sd4w)]

/-- A setting declaring a (throwing) initializer, for claim C5. -/
def sd5a : SettingDef := { v := "x", o := [("x", {})], i := true }

/-- A setting without an initializer, for claim C5. -/
def sd5b : SettingDef := { v := "y", o := [("y", {})] }

/-- Registry with the settings `a` (throwing initializer declared) and
`b` (no initializer). -/
def R5w : Obj SettingDef := [("a", sd5a), ("b", sd5b)]

/-- A setting whose options object contains the empty string as a key
(a legal JS property name), together with `a` and `b`; value `b`. -/
def sd7c : SettingDef := { v := "b", o := [("", {}), ("a", {}), ("b", {})] }

/-- Registry with the single setting `s` (`sd7c`). -/
def R7c : Obj SettingDef := [("s", sd7c)]

/-- The option definition stored under the key `light` in `sd8w`. -/
def odLight : OptionDef := { s := some "Light" }

/-- The option definition stored under the key `dark` in `sd8w`. -/
def odDark : OptionDef := { s := some "Dark" }

/-- A theme setting with labelled options, for claim C8. -/
def sd8w : SettingDef := { v := "light", o := [("light", odLight), ("dark", odDark)] }

/-- Registry with the single setting `theme` (`sd8w`). -/
def R8w : Obj SettingDef := [("theme", sd8w)]

/-- A submenu setting with the numeric option keys `1`, `2`, `3` and no
display labels, as in the scenario of claim C9.  JS enumerates
integer-like keys in ascending numeric order regardless of declaration
order, so this list is the enumeration order for EVERY declaration order
of these three options. -/
def sd9w : SettingDef :=
  { v := "1", o := [("1", {}), ("2", {}), ("3", {})], d := { type := "submenu" } }

/-! Helper lemmas. -/

/-- Reading back the key just written to the storage object. -/
theorem Obj.lookup_setKey_self {α : Type} (o : Obj α) (k : String) (v : α) :
    Obj.lookup (Obj.setKey o k v) k = some v := by
  induction o with
  | nil => simp [Obj.setKey, Obj.lookup]
  | cons p t ih =>
    obtain ⟨k2, v2⟩ := p
    by_cases h : k2 = k
    · simp [Obj.setKey, Obj.lookup, h]
    · simp [Obj.setKey, Obj.lookup, h, ih]

/-- `executeSetting` touches neither the settings object nor the storage. -/
theorem executeSetting_frame (cbOk : Bool) (st : EngineState) (setting argsValue : String) :
    (executeSetting cbOk st setting argsValue).1.registry = st.registry ∧
    (executeSetting cbOk st setting argsValue).1.storage = st.storage := by
  unfold executeSetting
  cases Obj.lookup st.registry setting with
  | none => exact ⟨rfl, rfl⟩
  | some sd =>
    simp only
    cases jsProp sd.o (if argsValue = "" then sd.v else argsValue) with
    | own od => by_cases h : od.f <;> simp [h]
    | inherited => exact ⟨rfl, rfl⟩
    | undef => exact ⟨rfl, rfl⟩

/-- `setSetting` never writes to the settings object. -/
theorem setSetting_registry (storeOk cbOk : Bool) (st : EngineState) (setting v : String) :
    (setSetting storeOk cbOk st setting v).1.registry = st.registry := by
  unfold setSetting
  cases Obj.lookup st.registry setting with
  | none => rfl
  | some sd =>
    simp only
    cases jsProp sd.o v with
    | own od =>
      by_cases h : od.f
      · have hex := executeSetting_frame cbOk st setting v
        by_cases hs : storeOk <;> simp [h, hs, hex.1]
      · by_cases hs : storeOk <;> simp [h, hs]
    | inherited => by_cases hs : storeOk <;> simp [hs]
    | undef => rfl

/-- `get?` at an in-range index. -/
theorem get?_eq_get_of_lt (arr : List String) (j : Nat) (h : j < arr.length) :
    arr.get? j = some (arr.get ⟨j, h⟩) := by
  induction arr generalizing j with
  | nil => simp at h
  | cons a t ih =>
    cases j with
    | zero => rfl
    | succ j2 => exact ih j2 (Nat.lt_of_succ_lt_succ h)

/-- On a duplicate-free list, the index of the element at position `i`
is `i`. -/
theorem idxOfAux_get (arr : List String) (hnd : arr.Nodup) (i : Nat)
    (h : i < arr.length) :
    idxOfAux (arr.get ⟨i, h⟩) arr = some i := by
  induction arr generalizing i with
  | nil => simp at h
  | cons a t ih =>
    obtain ⟨hna, hnt⟩ := List.nodup_cons.mp hnd
    cases i with
    | zero => simp [idxOfAux]
    | succ j =>
      have hj : j < t.length := Nat.lt_of_succ_lt_succ h
      have hmem : t.get ⟨j, hj⟩ ∈ t := t.get_mem j hj
      have hneq : ¬(a = t.get ⟨j, hj⟩) := fun he => hna (he ▸ hmem)
      have hget : (a :: t).get ⟨j + 1, h⟩ = t.get ⟨j, hj⟩ := rfl
      rw [hget]
      show (if a = t.get ⟨j, hj⟩ then some 0
            else (idxOfAux (t.get ⟨j, hj⟩) t).map (fun i2 => i2 + 1)) = some (j + 1)
      rw [if_neg hneq, ih hnt j hj]
      rfl

/-- Equal indices give equal list elements. -/
theorem get_congr_idx (arr : List String) (a b : Nat) (ha : a < arr.length)
    (hb : b < arr.length) (hab : a = b) : arr.get ⟨a, ha⟩ = arr.get ⟨b, hb⟩ := by
  subst hab
  rfl

/-- One application of the key component of `#getNextOption`, on a
registered setting whose option keys are duplicate-free and do not
contain the empty string, starting from the key at position `i`: it
returns the key at position `(i + 1) mod length`. -/
theorem nextKeyStep_get (st : EngineState) (S : String) (sd : SettingDef)
    (hS : Obj.lookup st.registry S = some sd)
    (hnd : (Obj.keys sd.o).Nodup)
    (hne : "" ∉ Obj.keys sd.o)
    (i : Nat) (h : i < (Obj.keys sd.o).length) :
    nextKeyStep st S ((Obj.keys sd.o).get ⟨i, h⟩) =
      some ((Obj.keys sd.o).get ⟨(i + 1) % (Obj.keys sd.o).length,
        Nat.mod_lt _ (Nat.lt_of_le_of_lt (Nat.zero_le i) h)⟩) := by
  have hkne : ¬((Obj.keys sd.o).get ⟨i, h⟩ = "") := by
    intro he
    exact hne (he ▸ (Obj.keys sd.o).get_mem i h)
  have hidx : jsIndexOf (Obj.keys sd.o) ((Obj.keys sd.o).get ⟨i, h⟩) = (i : Int) := by
    unfold jsIndexOf
    rw [idxOfAux_get (Obj.keys sd.o) hnd i h]
  have hneg : ¬((i : Int) = -1) := by omega
  have hlen0 : 0 < (Obj.keys sd.o).length := Nat.lt_of_le_of_lt (Nat.zero_le i) h
  simp only [List.get_eq_getElem] at hkne hidx
  by_cases hlast : (i : Int) = ((Obj.keys sd.o).length : Int) - 1
  · have hip : i + 1 = (Obj.keys sd.o).length := by omega
    have hzero : (i + 1) % (Obj.keys sd.o).length = 0 := by
      rw [hip, Nat.mod_self]
    unfold nextKeyStep getNextOption
    rw [hS]
    simp [hkne, hidx, hneg]
    rw [if_pos hlast]
    simp [List.getElem?_eq_getElem hlen0, hzero]
  · have hlt : i + 1 < (Obj.keys sd.o).length := by omega
    have htn : ((i : Int) + 1).toNat = i + 1 := by omega
    have hmodeq : (i + 1) % (Obj.keys sd.o).length = i + 1 := Nat.mod_eq_of_lt hlt
    unfold nextKeyStep getNextOption
    rw [hS]
    simp [hkne, hidx, hneg]
    rw [if_neg hlast]
    simp [htn, List.getElem?_eq_getElem hlt, hmodeq]

/-- Iterating the key component of `#getNextOption` `m` times from the
key at position `i` reaches the key at position `(i + m) mod length`. -/
theorem nextKeyIter_get (st : EngineState) (S : String) (sd : SettingDef)
    (hS : Obj.lookup st.registry S = some sd)
    (hnd : (Obj.keys sd.o).Nodup)
    (hne : "" ∉ Obj.keys sd.o) :
    ∀ (m i : Nat) (h : i < (Obj.keys sd.o).length),
      nextKeyIter st S m ((Obj.keys sd.o).get ⟨i, h⟩) =
        some ((Obj.keys sd.o).get ⟨(i + m) % (Obj.keys sd.o).length,
          Nat.mod_lt _ (Nat.lt_of_le_of_lt (Nat.zero_le i) h)⟩) := by
  intro m
  induction m with
  | zero =>
    intro i h
    have hi : i = (i + 0) % (Obj.keys sd.o).length := by
      rw [Nat.add_zero, Nat.mod_eq_of_lt h]
    unfold nextKeyIter
    exact congrArg some (get_congr_idx _ _ _ _ _ hi)
  | succ n ih =>
    intro i h
    have hstep := nextKeyStep_get st S sd hS hnd hne i h
    have hlen0 : 0 < (Obj.keys sd.o).length := Nat.lt_of_le_of_lt (Nat.zero_le i) h
    have hmod : (i + 1) % (Obj.keys sd.o).length < (Obj.keys sd.o).length :=
      Nat.mod_lt _ hlen0
    have hnext := ih ((i + 1) % (Obj.keys sd.o).length) hmod
    have hidxeq : ((i + 1) % (Obj.keys sd.o).length + n) % (Obj.keys sd.o).length =
        (i + (n + 1)) % (Obj.keys sd.o).length := by
      rw [Nat.mod_add_mod]
      congr 1
      omega
    unfold nextKeyIter
    rw [hstep]
    show nextKeyIter st S n
        ((Obj.keys sd.o).get ⟨(i + 1) % (Obj.keys sd.o).length, hmod⟩) = _
    rw [hnext]
    exact congrArg some (get_congr_idx _ _ _ _ _ hidxeq)

/-- Counting distributes over trace concatenation. -/
theorem countEv_append (e : Ev) (l1 l2 : List Ev) :
    countEv e (l1 ++ l2) = countEv e l1 + countEv e l2 := by
  induction l1 with
  | nil => simp [countEv]
  | cons x t ih => simp [countEv, ih]; omega

/-- Draining a queue with enough fuel emits exactly one storage write per
pending `persist`, one settle per pending callback body, and one visual
update per pending `react` or callback body. -/
theorem runQueue_counts (r : CbResult) :
    ∀ (fuel : Nat) (q : List MTask), sumBy queueCost q ≤ fuel →
      countEv Ev.store (runQueue r fuel q) = sumBy taskStores q ∧
      countEv (Ev.settle r) (runQueue r fuel q) = sumBy taskSettles q ∧
      countEv (Ev.domUpd (errFlag r)) (runQueue r fuel q) = sumBy taskDoms q := by
  intro fuel
  induction fuel with
  | zero =>
    intro q hq
    cases q with
    | nil => exact ⟨rfl, rfl, rfl⟩
    | cons t q2 =>
      exfalso
      cases t <;> simp [sumBy, queueCost] at hq
  | succ fuel ih =>
    intro q hq
    cases q with
    | nil => exact ⟨rfl, rfl, rfl⟩
    | cons t q2 =>
      cases t with
      | fRun k =>
        cases k with
        | zero =>
          have hc : sumBy queueCost (q2 ++ [MTask.react]) ≤ fuel := by
            simp [sumBy, queueCost] at hq ⊢; omega
          obtain ⟨h1, h2, h3⟩ := ih (q2 ++ [MTask.react]) hc
          refine ⟨?_, ?_, ?_⟩ <;>
            simp [runQueue, countEv, h1, h2, h3, sumBy, taskStores, taskSettles,
              taskDoms, Nat.add_comm]
        | succ k2 =>
          have hc : sumBy queueCost (q2 ++ [MTask.fRun k2]) ≤ fuel := by
            simp [sumBy, queueCost] at hq ⊢; omega
          obtain ⟨h1, h2, h3⟩ := ih (q2 ++ [MTask.fRun k2]) hc
          refine ⟨?_, ?_, ?_⟩ <;>
            simp [runQueue, countEv, h1, h2, h3, sumBy, taskStores, taskSettles,
              taskDoms] <;> omega
      | persist =>
        have hc : sumBy queueCost q2 ≤ fuel := by
          simp [sumBy, queueCost] at hq ⊢; omega
        obtain ⟨h1, h2, h3⟩ := ih q2 hc
        refine ⟨?_, ?_, ?_⟩ <;>
          simp [runQueue, countEv, h1, h2, h3, sumBy, taskStores, taskSettles,
            taskDoms]
      | react =>
        have hc : sumBy queueCost q2 ≤ fuel := by
          simp [sumBy, queueCost] at hq ⊢; omega
        obtain ⟨h1, h2, h3⟩ := ih q2 hc
        refine ⟨?_, ?_, ?_⟩ <;>
          simp [runQueue, countEv, h1, h2, h3, sumBy, taskStores, taskSettles,
            taskDoms]

/-! Claim theorems. -/

/-- C1: for every registered setting `S` and every value `v` that is a key
of the options object of `S`, after a successful `setSetting(S, {v})`
(durable store adapter not throwing, any callback outcome), a subsequent
`getSetting(S)` returns `v`. -/
theorem C1_set_then_get (cbOk : Bool) (st : EngineState) (S v : String)
    (sd : SettingDef) (od : OptionDef)
    (hS : Obj.lookup st.registry S = some sd)
    (hv : Obj.lookup sd.o v = some od) :
    getSetting (setSetting true cbOk st S v).1 S = some v := by
  have hjp : jsProp sd.o v = PropRead.own od := by
    unfold jsProp
    rw [hv]
  unfold setSetting
  rw [hS]
  simp only [hjp]
  by_cases h : od.f <;>
    simp [h, getSetting, Obj.lookup_setKey_self]

/-- Witness for C1 at the registry `R1w`: setting `theme` to `light`. -/
theorem C1_witness :
    getSetting (setSetting true false (construct R1w []) "theme" "light").1 "theme" =
      some "light" :=
  C1_set_then_get false (construct R1w []) "theme" "light" sd1w {}
    (by decide) (by decide)

/-- C2: the validation of `setSetting` does NOT reject every non-option
value.  The check at line 707 is the property read
`settingOptions[args.v] !== undefined`, which also hits the prototype
chain: at the registry `R1w`, the value `constructor` is not a key of the
options object of `theme`, yet the read finds the inherited
`Object.prototype` member, the check passes, the inherited member has no
`f`, and the no-callback branch runs — `constructor` is persisted to
durable storage (so a subsequent `getSetting` returns it, changed from
`dark`), no exception escapes, and the visual update is invoked with the
error flag CLEAR.  This refutes every conjunct of the claim except
no-crash at this input. -/
theorem C2_prototype_member_accepted :
    "constructor" ∉ Obj.keys sd1w.o ∧
    (setSetting true true (construct R1w []) "theme" "constructor").2 = false ∧
    (setSetting true true (construct R1w []) "theme" "constructor").1.storage =
      [("theme", "constructor")] ∧
    getSetting (setSetting true true (construct R1w []) "theme" "constructor").1
      "theme" = some "constructor" ∧
    getSetting (construct R1w []) "theme" = some "dark" ∧
    (setSetting true true (construct R1w []) "theme" "constructor").1.dom =
      [⟨"theme", "constructor", false⟩] := by
  decide

/-- C3: the defaults snapshot is NOT a distinct immutable deep copy.
Line 91 assigns `this.#defaults = this.#settings` (an alias, hence
`getDefaults` and `getSettings` return the same object), and the
`Object.freeze` of line 92 is shallow, so an external mutation of a
nested field of the working settings object is visible through
`getDefault`: after construction with default `dark`, the mutation
`getSettings().theme.v = "light"` makes `getDefault("theme")` report
`light`. -/
theorem C3_defaults_track_working_object :
    getDefaults (construct R3w []) = getSettings (construct R3w []) ∧
    getDefault (construct R3w []) "theme" = some "dark" ∧
    getDefault (extMutateValue (construct R3w []) "theme" "light") "theme" =
      some "light" := by
  decide

/-- C4: `init()` never invokes a declared initializer.  The for-in loop
variable is the property key (a string), so the guard `setting.i` of line
140 is always `undefined`; even for the setting `a` of `R4w`, whose
schema declares an initializer (`sd4w.i = true`), `init` records no
initializer invocation and instead applies the stored/default value via
`setSetting`. -/
theorem C4_initializer_never_invoked :
    sd4w.i = true ∧
    (init true true (construct R4w [])).initLog = [] ∧
    (init true true (construct R4w [])).storage = [("a", "x")] := by
  decide

/-- C5: `init()` reports no aggregated failure.  With the registry `R5w` —
setting `a` declaring a (throwing) initializer, setting `b` without one —
`init` invokes no initializer at all (so nothing can throw), applies the
default of each setting via `setSetting` with a success visual update,
and terminates normally; its body (lines 136-150) has no try/catch, no
collection of failures and no terminal throw, so no failure signal of any
kind is produced. -/
theorem C5_init_reports_no_failure :
    (init true true (construct R5w [])).initLog = [] ∧
    (init true true (construct R5w [])).storage = [("a", "x"), ("b", "y")] ∧
    (init true true (construct R5w [])).dom =
      [⟨"a", "x", false⟩, ⟨"b", "y", false⟩] := by
  decide

/-- C6, counterexample: the value is NOT persisted only after the
callback has resolved.  With a callback that suspends twice before
resolving `true`, the trace of the valid-`set`-with-callback path places
the storage write (index 1) strictly BEFORE the settling of the callback
promise (index 2): `executeSetting` returns `undefined` rather than a
promise tied to the callback, so `await this.executeSetting(...)`
schedules the `setItem` continuation after a single microtask,
independently of the callback. -/
theorem C6_store_before_callback_resolves :
    setCallbackTrace 2 (CbResult.ret true) =
      [Ev.invoke true true, Ev.store, Ev.settle (CbResult.ret true),
        Ev.domUpd false] ∧
    List.findIdx (fun e => e == Ev.store) (setCallbackTrace 2 (CbResult.ret true)) <
      List.findIdx isSettleEv (setCallbackTrace 2 (CbResult.ret true)) := by
  decide

/-- C6, amended: on the valid-`set` path whose option declares a
callback, the callback is invoked first with an argument object carrying
the engine reference and the setting self-reference; the value is
persisted to durable storage exactly once REGARDLESS of the callback
outcome (resolving `true`, resolving falsy, or rejecting), but the write
is scheduled independently of the callback rather than after its
resolution; the visual update runs exactly once with the error flag set
if and only if the callback did not resolve to `true`; and the callback
promise settles exactly once. -/
theorem C6_persist_and_error_decoupled (ticks : Nat) (result : CbResult) :
    (setCallbackTrace ticks result).head? = some (Ev.invoke true true) ∧
    countEv Ev.store (setCallbackTrace ticks result) = 1 ∧
    countEv (Ev.domUpd (errFlag result)) (setCallbackTrace ticks result) = 1 ∧
    countEv (Ev.settle result) (setCallbackTrace ticks result) = 1 := by
  cases ticks with
  | zero =>
    obtain ⟨h1, h2, h3⟩ := runQueue_counts result 4 [MTask.react, MTask.persist]
      (by simp [sumBy, queueCost])
    refine ⟨rfl, ?_, ?_, ?_⟩ <;>
      simp [setCallbackTrace, countEv, h1, h2, h3, sumBy, taskStores,
        taskSettles, taskDoms]
  | succ k =>
    obtain ⟨h1, h2, h3⟩ := runQueue_counts result (k + 5) [MTask.fRun k, MTask.persist]
      (by simp [sumBy, queueCost])
    refine ⟨rfl, ?_, ?_, ?_⟩ <;>
      simp [setCallbackTrace, countEv, h1, h2, h3, sumBy, taskStores,
        taskSettles, taskDoms]

/-- C7, counterexample: the key component of `#getNextOption` is NOT
cyclic from every option key.  In `R7c` the setting `s` has the three
option keys `""`, `a`, `b` (the empty string is a legal JS property
name) and current value `b`; because line 586 treats an empty
`currentOption` as the absent-argument sentinel and substitutes
`getSetting`, iterating the key component three times from the option
key `a` ends at `""`, not back at `a`. -/
theorem C7_empty_key_breaks_cycle :
    "a" ∈ Obj.keys sd7c.o ∧
    (Obj.keys sd7c.o).length = 3 ∧
    nextKeyIter (construct R7c []) "s" 3 "a" = some "" ∧
    nextKeyIter (construct R7c []) "s" 3 "a" ≠ some "a" := by
  decide

/-- C7, amended: for every registered setting whose option keys are
duplicate-free and do not include the empty string (which line 586
treats as the absent-argument sentinel), the key component of
`#getNextOption` is a total cyclic function over the enumeration order
of the options object: applying it `|options|` times from any option key
returns that key, and applying it to the last key yields the first
key. -/
theorem C7_next_option_cycles (st : EngineState) (S : String) (sd : SettingDef)
    (k lastK firstK : String)
    (hS : Obj.lookup st.registry S = some sd)
    (hnd : (Obj.keys sd.o).Nodup)
    (hne : "" ∉ Obj.keys sd.o)
    (hk : k ∈ Obj.keys sd.o)
    (hlast : (Obj.keys sd.o).get? ((Obj.keys sd.o).length - 1) = some lastK)
    (hfirst : (Obj.keys sd.o).get? 0 = some firstK) :
    nextKeyIter st S ((Obj.keys sd.o).length) k = some k ∧
    nextKeyStep st S lastK = some firstK := by
  obtain ⟨⟨i, h⟩, hget⟩ := List.mem_iff_get.mp hk
  have hlen0 : 0 < (Obj.keys sd.o).length := Nat.lt_of_le_of_lt (Nat.zero_le i) h
  constructor
  · have h1 := nextKeyIter_get st S sd hS hnd hne ((Obj.keys sd.o).length) i h
    have hmodi : (i + (Obj.keys sd.o).length) % (Obj.keys sd.o).length = i := by
      rw [Nat.add_mod_right, Nat.mod_eq_of_lt h]
    rw [← hget, h1]
    exact congrArg some (get_congr_idx _ _ _ _ h hmodi)
  · have hl : (Obj.keys sd.o).length - 1 < (Obj.keys sd.o).length := by omega
    have hlastget : lastK = (Obj.keys sd.o).get ⟨(Obj.keys sd.o).length - 1, hl⟩ := by
      have := get?_eq_get_of_lt (Obj.keys sd.o) ((Obj.keys sd.o).length - 1) hl
      rw [this] at hlast
      exact (Option.some.inj hlast).symm
    have hfirstget : firstK = (Obj.keys sd.o).get ⟨0, hlen0⟩ := by
      have := get?_eq_get_of_lt (Obj.keys sd.o) 0 hlen0
      rw [this] at hfirst
      exact (Option.some.inj hfirst).symm
    have hstep := nextKeyStep_get st S sd hS hnd hne ((Obj.keys sd.o).length - 1) hl
    have hwrap : ((Obj.keys sd.o).length - 1 + 1) % (Obj.keys sd.o).length = 0 := by
      have hc : (Obj.keys sd.o).length - 1 + 1 = (Obj.keys sd.o).length := by omega
      rw [hc, Nat.mod_self]
    rw [hlastget, hfirstget, hstep]
    exact congrArg some (get_congr_idx _ _ _ _ hlen0 hwrap)

/-- Witness for C7 amended at the registry `R3w`: two options `light`,
`dark`; two applications from `light` return to `light`, and from the
last key `dark` one application wraps to `light`. -/
theorem C7_cycle_witness :
    nextKeyIter (construct R3w []) "theme" ((Obj.keys sd3w.o).length) "light" =
      some "light" ∧
    nextKeyStep (construct R3w []) "theme" "dark" = some "light" :=
  C7_next_option_cycles (construct R3w []) "theme" sd3w "light" "dark" "light"
    (by decide) (by decide) (by decide) (by decide) (by decide) (by decide)

/-- C8: `#getNextOption` does not return the option definition stored
under the next key.  At the registry `R8w`, from current option `light`
the next key is `dark`, but the second component is
`settingOptions[currentOptionIndex + 1]` (line 605) — the property named
`1` of the options object — which is `undefined` (`none`), although the
definition stored under `dark` is `odDark`. -/
theorem C8_next_definition_numeric_index :
    getNextOption (construct R8w []) "theme" "light" = some (some "dark", none) ∧
    Obj.lookup sd8w.o "dark" = some odDark ∧
    some odDark ≠ (none : Option OptionDef) := by
  decide

/-- C9: a submenu setting with numeric option keys `1`, `2`, `3` and no
display labels renders its sub-buttons in enumeration order `1, 2, 3`,
not in descending order `3, 2, 1`: the sort of lines 442-444 is guarded
by `parseFloat` of the LABEL `s` of the first option (line 441), which is
`undefined` here, so the sort is skipped. -/
theorem C9_numeric_keys_render_in_enumeration_order :
    generateSubButtons sd9w = ["1", "2", "3"] ∧
    generateSubButtons sd9w ≠ ["3", "2", "1"] := by
  decide

/-- C10: `setSetting` never modifies the in-memory settings registry,
whether it succeeds, fails validation, throws on an unregistered name, or
hits a storage failure (`storeOk = false`): `getSettings` and every
`getSettingObject` report the same objects before and after the call. -/
theorem C10_setSetting_frame (storeOk cbOk : Bool) (st : EngineState) (S v : String) :
    getSettings (setSetting storeOk cbOk st S v).1 = getSettings st ∧
    ∀ k : String, getSettingObject (setSetting storeOk cbOk st S v).1 k =
      getSettingObject st k := by
  have h := setSetting_registry storeOk cbOk st S v
  exact ⟨h, fun k => by simp [getSettingObject, h]⟩

end SettingsManager
